import Mathlib

/-!
Shallow embedding of the data transformation and aggregation pipeline of the
lead dashboard (src/app.py): field derivation, categorical filtering, and
group-by aggregation over an in-memory leads table.

Spreadsheet cells that pandas represents as NaN are modelled as `none`;
a populated cell is `some value`.  A table is a list of rows, preserving
the order and multiplicity of the dataframe.
-/

namespace LeadDashboard

/-- One row of the `Leads w Opps` table after date normalisation.
`createdMonth` carries the derived "Created Month" column (full month name,
absent when the created date failed to parse); `qualifiedPresent`,
`workflowPresent` and `oppCreatedPresent` record whether the corresponding
nullable cell is populated, since only presence matters downstream. -/
structure Row where
  leadId : String
  leadOwner : Option String
  subIndustry : Option String
  segment : Option String
  leadSource : Option String
  leadStatus : Option String
  createdMonth : Option String
  qualifiedPresent : Bool
  workflowPresent : Bool
  oppCreatedPresent : Bool
  oppName : Option String
  stage : Option String
  arrDelta : Option Rat
deriving DecidableEq, Repr, Inhabited

/-- A leads table: list of rows, as in the dataframe. -/
abbrev Table := List Row

/-- Embeds `classify_account` of src/app.py (Variant B, 2-way): a NaN
segment matches neither branch and falls through to "Unclassified". -/
def classify_account (row : Row) : String :=
  if row.segment = some "Mid Market" ∨ row.segment = some "Mass Market" then "SMB"
  else if row.segment = some "Enterprise" then "ENT"
  else "Unclassified"

/-- Modelled from the spec: the Variant A (4-way) classifier belongs to the
second pipeline file of the repository, which is not under src/.  Rules
follow spec section 4.1, evaluated top-down, first match wins. -/
def classify_account_variantA (row : Row) : String :=
  if (row.segment = some "Mid Market" ∨ row.segment = some "Mass Market")
      ∧ row.workflowPresent then "SMB Net New"
  else if (row.segment = some "Mid Market" ∨ row.segment = some "Mass Market")
      ∧ row.leadSource = some "Expansion Readiness" then "SMB Expansion"
  else if row.segment = some "Enterprise" ∧ row.workflowPresent then "ENT Net New"
  else if row.segment = some "Enterprise"
      ∧ row.leadSource = some "Expansion Readiness" then "ENT Expansion"
  else "Unclassified"

/-- Modelled from the spec: the two classification rule sets are supported
as configuration (spec sections 4.1 and 9); the repository realises them as
two pipeline files, of which only the Variant B one is under src/. -/
inductive ClassificationVariant where
  | A : ClassificationVariant
  | B : ClassificationVariant
deriving DecidableEq, Repr

/-- Modelled from the spec: dispatch of the configured classification
variant. -/
def classify_account_configured : ClassificationVariant → Row → String
  | ClassificationVariant.A, r => classify_account_variantA r
  | ClassificationVariant.B, r => classify_account r

/-- Row `L1` of the worked example in the spec: Segment Enterprise with a
populated workflow indicator. -/
def exampleRowL1 : Row :=
  { leadId := "L1", leadOwner := none, subIndustry := none,
    segment := some "Enterprise", leadSource := none, leadStatus := none,
    createdMonth := none, qualifiedPresent := false, workflowPresent := true,
    oppCreatedPresent := false, oppName := none, stage := none, arrDelta := none }

/-- Row `L2` of the worked example in the spec: Segment Enterprise, no
workflow indicator, Lead Source "Expansion Readiness". -/
def exampleRowL2 : Row :=
  { leadId := "L2", leadOwner := none, subIndustry := none,
    segment := some "Enterprise", leadSource := some "Expansion Readiness",
    leadStatus := none, createdMonth := none, qualifiedPresent := false,
    workflowPresent := false, oppCreatedPresent := false, oppName := none,
    stage := none, arrDelta := none }

/-- The four sidebar selections of src/app.py; the string "All" is the
sentinel meaning the dimension is not filtered. -/
structure Selection where
  lead_owner : String
  sub_industry : String
  month : String
  classification : String
deriving DecidableEq, Repr

/-- Embeds the filter application of src/app.py lines 70 to 78: four
successive conditional equality filters over the derived table.  The
Account Classification column is the derived `classify_account` value, and
a pandas comparison of NaN with a string is False, hence `Option` equality
against `some` on the nullable columns. -/
def applyFilters (s : Selection) (df : Table) : Table :=
  let df1 := if s.lead_owner = "All" then df
    else df.filter (fun r => r.leadOwner == some s.lead_owner)
  let df2 := if s.sub_industry = "All" then df1
    else df1.filter (fun r => r.subIndustry == some s.sub_industry)
  let df3 := if s.month = "All" then df2
    else df2.filter (fun r => r.createdMonth == some s.month)
  if s.classification = "All" then df3
  else df3.filter (fun r => classify_account r == s.classification)

/-- Written from the words of the spec, to compare with `applyFilters`:
a row matches when every active filter agrees with it by equality. -/
def matchesAll (s : Selection) (r : Row) : Bool :=
  (if s.lead_owner = "All" then true else r.leadOwner == some s.lead_owner) &&
  (if s.sub_industry = "All" then true else r.subIndustry == some s.sub_industry) &&
  (if s.month = "All" then true else r.createdMonth == some s.month) &&
  (if s.classification = "All" then true else classify_account r == s.classification)

/-- Distinct count of the Lead 18-Digit ID column, the pandas `nunique`
used throughout src/app.py. -/
def nuniqueLeadIds (df : Table) : Nat := (df.map (fun r => r.leadId)).dedup.length

/-- Embeds `total_leads` of src/app.py line 84. -/
def total_leads (df : Table) : Nat := nuniqueLeadIds df

/-- Embeds `convert_to_opp_pct` of src/app.py line 85:
`df["Opportunity: Created Date"].notna().mean() * 100`.  The pandas mean of
an empty boolean series is NaN, modelled here as `none`. -/
def convert_to_opp_pct (df : Table) : Option Rat :=
  if df.length = 0 then none
  else some (((df.filter (fun r => r.oppCreatedPresent)).length : Rat)
    / (df.length : Rat) * 100)

/-- Embeds `closed_won_count` of src/app.py line 86: number of rows whose
Stage cell equals "Closed Won". -/
def closed_won_count (df : Table) : Nat :=
  (df.filter (fun r => r.stage == some "Closed Won")).length

/-- Embeds `total_opps` of src/app.py line 87: pandas `nunique` of the
Opportunity Name column, which ignores NaN cells. -/
def total_opps (df : Table) : Nat := (df.filterMap (fun r => r.oppName)).dedup.length

/-- Embeds `closed_won_rate` of src/app.py line 88, guarded against a zero
distinct-opportunity count. -/
def closed_won_rate (df : Table) : Rat :=
  if 0 < total_opps df
  then (closed_won_count df : Rat) / (total_opps df : Rat) * 100
  else 0

/-- The calendar month order of src/app.py lines 101 to 104. -/
def month_order : List String :=
  ["January", "February", "March", "April", "May", "June",
   "July", "August", "September", "October", "November", "December"]

/-- Group keys of a pandas groupby over a nullable column: the distinct
populated values; NaN keys are dropped by groupby. -/
def groupKeys (f : Row → Option String) (df : Table) : List String :=
  (df.filterMap f).dedup

/-- Embeds `df.groupby(col)["Lead 18-Digit ID"].nunique()`: one entry per
group key, carrying the distinct lead-id count of the rows of that group. -/
def groupbyNuniqueLead (f : Row → Option String) (df : Table) : List (String × Nat) :=
  (groupKeys f df).map
    (fun k => (k, nuniqueLeadIds (df.filter (fun r => f r == some k))))

/-- Embeds the reindex of src/app.py line 105:
`monthly.reindex([m for m in ordered_months if m in monthly.index])` —
select, in the order of `order`, exactly the labels present in the series,
looking each value up by label. -/
def reindexKeep (order : List String) (g : List (String × Nat)) : List (String × Nat) :=
  (order.filter (fun m => (g.map Prod.fst).contains m)).map
    (fun m => (m, ((g.find? (fun q => q.1 == m)).map Prod.snd).getD 0))

/-- Embeds `monthly` of src/app.py lines 100 to 105: distinct lead ids per
created month, reindexed into calendar order keeping only months present. -/
def monthly (df : Table) : List (String × Nat) :=
  reindexKeep month_order (groupbyNuniqueLead (fun r => r.createdMonth) df)

/-- The fixed stage order of src/app.py lines 237 to 240. -/
def stage_order : List String :=
  ["Discovery", "Qualified", "Evaluation", "Pricing Negotiation",
   "Legal Negotiation", "Proposal", "Closed Won", "Closed Lost", "Unqualified"]

/-- Pandas column sum: NaN cells are skipped, an all-NaN or empty column
sums to 0. -/
def arrDeltaSum (df : Table) : Rat := (df.filterMap (fun r => r.arrDelta)).sum

/-- The two aggregates of the stage summary for one stage value: sum of
ARR Delta (converted) and distinct lead-id count over the rows of that
stage. -/
def stageAgg (df : Table) (s : String) : Rat × Nat :=
  (arrDeltaSum (df.filter (fun r => r.stage == some s)),
   nuniqueLeadIds (df.filter (fun r => r.stage == some s)))

/-- Embeds `stage_table` of src/app.py lines 241 to 251: group by Stage,
aggregate, reindex to the full fixed stage order (a stage absent from the
data gets an all-NaN row, modelled as `none`), then `dropna(how=all)`
removes exactly those all-NaN rows. -/
def stage_table (df : Table) : List (String × Rat × Nat) :=
  (stage_order.map (fun s =>
    (s, if (groupKeys (fun r => r.stage) df).contains s
        then some (stageAgg df s) else none))).filterMap
    (fun q => (q.2).map (fun a => (q.1, a)))

/-- Round to the nearest integer, ties to even, as Python float formatting
rounds. -/
def roundHalfEven (x : Rat) : Int :=
  if x - x.floor < 1/2 then x.floor
  else if 1/2 < x - x.floor then x.floor + 1
  else if x.floor % 2 = 0 then x.floor else x.floor + 1

/-- Decimal rendering of a nonnegative rational with one fractional digit,
as the Python format `%.1f` renders the pie percentage. -/
def fmtRat1 (p : Rat) : String :=
  toString (roundHalfEven (p * 10) / 10) ++ "." ++ toString (roundHalfEven (p * 10) % 10)

/-- Embeds the `autopct` lambda of src/app.py line 200:
percentage to one decimal, newline, then the absolute count recomputed as
`int(p * total / 100)`; Python `int` truncates, which on the nonnegative
values arising here is the floor. -/
def autopct_label (total : Nat) (p : Rat) : String :=
  fmtRat1 p ++ "%\n(" ++ toString (p * (total : Rat) / 100).floor ++ ")"

/-- The two pie labels for a (Qualified, Not Qualified) count pair; the
pie wedge percentage handed to `autopct` is count over total times 100. -/
def pie_labels (q nq : Nat) : String × String :=
  (autopct_label (q + nq) ((q : Rat) / ((q + nq : Nat) : Rat) * 100),
   autopct_label (q + nq) ((nq : Rat) / ((q + nq : Nat) : Rat) * 100))

/-- Embeds `qualified_counts` of src/app.py line 191: distinct lead ids per
value of the derived Is Qualified column. -/
def qualified_counts (df : Table) : Nat × Nat :=
  (nuniqueLeadIds (df.filter (fun r => r.qualifiedPresent)),
   nuniqueLeadIds (df.filter (fun r => !r.qualifiedPresent)))

/-- One row of the `Campaigns w Leads` association table: a lead id paired
with a campaign name (nullable, as any spreadsheet cell). -/
structure AssocRow where
  leadId : String
  campaignName : Option String
deriving DecidableEq, Repr

/-- Embeds `df.merge(campaigns_w_leads, on="Lead 18-Digit ID", how="left")`
restricted to the two columns the campaign aggregation reads: each lead row
is replicated once per matching association row, and a lead row with no
match survives with an absent campaign name. -/
def leftMerge (df : Table) (assoc : List AssocRow) : List (String × Option String) :=
  df.flatMap (fun r =>
    if (assoc.filter (fun a => a.leadId == r.leadId)).isEmpty
    then [(r.leadId, (none : Option String))]
    else (assoc.filter (fun a => a.leadId == r.leadId)).map
      (fun a => (r.leadId, a.campaignName)))

/-- Embeds one entry of `top_campaigns_table` of src/app.py lines 171 to
179: the distinct lead-id count of the merged rows carrying campaign `c`
(the groupby drops rows whose campaign name is NaN). -/
def campaign_lead_count (df : Table) (assoc : List AssocRow) (c : String) : Nat :=
  (((leftMerge df assoc).filter (fun q => q.2 == some c)).map Prod.fst).dedup.length

/-- A one-lead table used to exhibit a lead associated with two campaigns. -/
def exampleCampaignDf : Table := [exampleRowL1]

/-- Two association rows mapping the single lead of `exampleCampaignDf` to
two distinct campaigns. -/
def exampleCampaignAssoc : List AssocRow :=
  [{ leadId := "L1", campaignName := some "Webinar" },
   { leadId := "L1", campaignName := some "Field Event" }]

theorem applyFilters_eq_filter (s : Selection) (df : Table) :
    applyFilters s df = df.filter (matchesAll s) := by
  unfold applyFilters matchesAll
  by_cases h1 : s.lead_owner = "All" <;>
  by_cases h2 : s.sub_industry = "All" <;>
  by_cases h3 : s.month = "All" <;>
  by_cases h4 : s.classification = "All" <;>
    simp [h1, h2, h3, h4, List.filter_filter, Bool.and_assoc, Bool.and_comm,
      Bool.and_left_comm]

theorem matchesAll_iff (s : Selection) (r : Row) :
    matchesAll s r = true ↔
      (s.lead_owner = "All" ∨ r.leadOwner = some s.lead_owner) ∧
      (s.sub_industry = "All" ∨ r.subIndustry = some s.sub_industry) ∧
      (s.month = "All" ∨ r.createdMonth = some s.month) ∧
      (s.classification = "All" ∨ classify_account r = s.classification) := by
  unfold matchesAll
  by_cases h1 : s.lead_owner = "All" <;>
  by_cases h2 : s.sub_industry = "All" <;>
  by_cases h3 : s.month = "All" <;>
  by_cases h4 : s.classification = "All" <;>
    simp [h1, h2, h3, h4, and_assoc]

/-- C1: the account classifier is a total function of the row: Segment in
{Mid Market, Mass Market} gives "SMB", Segment "Enterprise" gives "ENT",
anything else (including an absent segment) gives "Unclassified", so every
row maps to exactly one of these three labels and the result is never
absent. -/
theorem classify_account_total (r : Row) :
    ((r.segment = some "Mid Market" ∨ r.segment = some "Mass Market") →
      classify_account r = "SMB") ∧
    (r.segment = some "Enterprise" → classify_account r = "ENT") ∧
    (¬ (r.segment = some "Mid Market" ∨ r.segment = some "Mass Market" ∨
        r.segment = some "Enterprise") →
      classify_account r = "Unclassified") ∧
    (classify_account r = "SMB" ∨ classify_account r = "ENT" ∨
      classify_account r = "Unclassified") := by
  unfold classify_account
  refine ⟨fun h => by simp [h], fun h => ?_, fun h => ?_, ?_⟩
  · have : ¬ (r.segment = some "Mid Market" ∨ r.segment = some "Mass Market") := by
      rintro (h1 | h1) <;> simp [h1] at h
    simp [this, h]
  · push_neg at h
    simp [h.1, h.2.1, h.2.2]
  · by_cases h1 : r.segment = some "Mid Market" ∨ r.segment = some "Mass Market"
    · simp [h1]
    · by_cases h2 : r.segment = some "Enterprise" <;> simp [h1, h2]

/-- Witness for C1 at a concrete row with Segment Enterprise. -/
theorem classify_account_total_witness :
    exampleRowL1.segment = some "Enterprise" ∧
      classify_account exampleRowL1 = "ENT" :=
  ⟨rfl, (classify_account_total exampleRowL1).2.1 rfl⟩

/-- C2: both classification variants are supported as configuration, and
under Variant A the two-row worked example classifies row `L1` (Enterprise,
workflow indicator present) as "ENT Net New" and row `L2` (Enterprise,
Lead Source "Expansion Readiness") as "ENT Expansion". -/
theorem classify_account_configured_example :
    classify_account_configured ClassificationVariant.A exampleRowL1 = "ENT Net New" ∧
    classify_account_configured ClassificationVariant.A exampleRowL2 = "ENT Expansion" ∧
    classify_account_configured ClassificationVariant.B exampleRowL1 = classify_account exampleRowL1 := by
  refine ⟨?_, ?_, rfl⟩ <;> decide

/-- C5: the filter engine returns exactly the rows matching all active
filters by equality, as a logical AND across the four dimensions; a row
with an absent value on an actively filtered dimension is excluded. -/
theorem applyFilters_spec (s : Selection) (df : Table) (r : Row) :
    (r ∈ applyFilters s df ↔ r ∈ df ∧
      (s.lead_owner = "All" ∨ r.leadOwner = some s.lead_owner) ∧
      (s.sub_industry = "All" ∨ r.subIndustry = some s.sub_industry) ∧
      (s.month = "All" ∨ r.createdMonth = some s.month) ∧
      (s.classification = "All" ∨ classify_account r = s.classification)) ∧
    (s.lead_owner ≠ "All" → r.leadOwner = none → r ∉ applyFilters s df) ∧
    (s.sub_industry ≠ "All" → r.subIndustry = none → r ∉ applyFilters s df) ∧
    (s.month ≠ "All" → r.createdMonth = none → r ∉ applyFilters s df) := by
  have hmem : r ∈ applyFilters s df ↔ r ∈ df ∧
      (s.lead_owner = "All" ∨ r.leadOwner = some s.lead_owner) ∧
      (s.sub_industry = "All" ∨ r.subIndustry = some s.sub_industry) ∧
      (s.month = "All" ∨ r.createdMonth = some s.month) ∧
      (s.classification = "All" ∨ classify_account r = s.classification) := by
    rw [applyFilters_eq_filter, List.mem_filter, matchesAll_iff]
  refine ⟨hmem, ?_, ?_, ?_⟩
  · intro hs hr hin
    rcases (hmem.mp hin).2.1 with h | h
    · exact hs h
    · rw [hr] at h; cases h
  · intro hs hr hin
    rcases (hmem.mp hin).2.2.1 with h | h
    · exact hs h
    · rw [hr] at h; cases h
  · intro hs hr hin
    rcases (hmem.mp hin).2.2.2.1 with h | h
    · exact hs h
    · rw [hr] at h; cases h

/-- Witness for C5: with an active Lead Owner filter, a row whose owner is
absent is excluded from a one-row table. -/
theorem applyFilters_spec_witness :
    ("Ann" : String) ≠ "All" ∧ exampleRowL1.leadOwner = none ∧
      exampleRowL1 ∉
        applyFilters ⟨"Ann", "All", "All", "All"⟩ [exampleRowL1] :=
  ⟨by decide, rfl,
    (applyFilters_spec ⟨"Ann", "All", "All", "All"⟩
        [exampleRowL1] exampleRowL1).2.1 (by decide) rfl⟩

/-- C6: filtering is idempotent and order-independent: two single-predicate
filters commute, one filter is idempotent, and the whole filter engine
applied twice with the same selection equals one application. -/
theorem applyFilters_idem_comm :
    (∀ (p q : Row → Bool) (df : Table),
      (df.filter p).filter q = (df.filter q).filter p) ∧
    (∀ (p : Row → Bool) (df : Table), (df.filter p).filter p = df.filter p) ∧
    (∀ (s : Selection) (df : Table),
      applyFilters s (applyFilters s df) = applyFilters s df) := by
  refine ⟨fun p q df => ?_, fun p df => ?_, fun s df => ?_⟩
  · simp only [List.filter_filter]
    exact List.filter_congr (fun a _ => Bool.and_comm _ _)
  · simp [List.filter_filter]
  · simp [applyFilters_eq_filter, List.filter_filter]

/-- C3: the closed-won rate is the closed-won row count over the distinct
opportunity-name count times 100 (in exact arithmetic, where a zero
denominator yields 0), and it is exactly 0 whenever the distinct
opportunity count is 0, regardless of the closed-won count. -/
theorem closed_won_rate_spec (df : Table) :
    closed_won_rate df =
      ((df.countP (fun r => r.stage == some "Closed Won") : Nat) : Rat)
        / (((df.filterMap (fun r => r.oppName)).toFinset.card : Nat) : Rat) * 100 ∧
    (total_opps df = 0 → closed_won_rate df = 0) := by
  have hc : closed_won_count df = df.countP (fun r => r.stage == some "Closed Won") := by
    rw [closed_won_count, List.countP_eq_length_filter]
  have ht : total_opps df = (df.filterMap (fun r => r.oppName)).toFinset.card := by
    rw [total_opps, List.card_toFinset]
  constructor
  · rw [← hc, ← ht, closed_won_rate]
    by_cases h : 0 < total_opps df
    · rw [if_pos h]
    · rw [if_neg h]
      have h0 : total_opps df = 0 := by omega
      rw [h0]
      norm_num
  · intro h0
    rw [closed_won_rate, if_neg (by omega)]

/-- Witness for C3: a one-row table with no opportunity name has a zero
distinct-opportunity count and a closed-won rate of exactly 0. -/
theorem closed_won_rate_spec_witness :
    total_opps [exampleRowL1] = 0 ∧ closed_won_rate [exampleRowL1] = 0 :=
  ⟨by decide, (closed_won_rate_spec [exampleRowL1]).2 (by decide)⟩

/-- Counterexample to C4 as stated: on the empty filtered table the code
takes the pandas mean of an empty boolean series, which is NaN (modelled
`none`), so the rate is not zero there. -/
theorem convert_to_opp_pct_empty_counterexample :
    convert_to_opp_pct ([] : Table) = none ∧
      ¬ convert_to_opp_pct ([] : Table) = some 0 := by
  refine ⟨rfl, ?_⟩
  intro h
  simp [convert_to_opp_pct] at h

/-- C4 amended: on a table with at least one row, `convert_to_opp_pct` is
the count of rows with a populated Opportunity Created Date over the total
row count times 100 (rows, not distinct leads, are the unit); on a zero-row
table the value is the pandas NaN (absent), not zero. -/
theorem convert_to_opp_pct_spec (df : Table) :
    (df.length ≠ 0 → convert_to_opp_pct df =
      some (((df.countP (fun r => r.oppCreatedPresent) : Nat) : Rat)
        / (df.length : Rat) * 100)) ∧
    (df.length = 0 → convert_to_opp_pct df = none) := by
  constructor
  · intro h
    rw [convert_to_opp_pct, if_neg h, List.countP_eq_length_filter]
  · intro h
    rw [convert_to_opp_pct, if_pos h]

/-- Witness for C4 (amended) on a one-row table. -/
theorem convert_to_opp_pct_spec_witness :
    ([exampleRowL1] : Table).length ≠ 0 ∧
      convert_to_opp_pct [exampleRowL1] =
        some (((([exampleRowL1] : Table).countP (fun r => r.oppCreatedPresent) : Nat) : Rat)
          / (([exampleRowL1] : Table).length : Rat) * 100) :=
  ⟨by decide, (convert_to_opp_pct_spec [exampleRowL1]).1 (by decide)⟩

theorem nuniqueLeadIds_pos (df : Table) (h : df ≠ []) : 0 < nuniqueLeadIds df := by
  rw [nuniqueLeadIds, List.length_pos, Ne, List.dedup_eq_nil, List.map_eq_nil_iff]
  exact h

theorem reindexKeep_map_fst (order : List String) (g : List (String × Nat)) :
    (reindexKeep order g).map Prod.fst =
      order.filter (fun m => (g.map Prod.fst).contains m) := by
  rw [reindexKeep, List.map_map]
  exact List.map_id'' (fun x => rfl) _

theorem groupbyNuniqueLead_map_fst (f : Row → Option String) (df : Table) :
    (groupbyNuniqueLead f df).map Prod.fst = groupKeys f df := by
  rw [groupbyNuniqueLead, List.map_map]
  exact List.map_id'' (fun x => rfl) _

theorem find?_beq_self (m : String) (l : List String) (h : m ∈ l) :
    l.find? (fun k => k == m) = some m := by
  induction l with
  | nil => cases h
  | cons a t ih =>
    rcases List.mem_cons.mp h with h1 | h1
    · subst h1
      exact List.find?_cons_of_pos _ (by simp)
    · by_cases ha : a = m
      · subst ha
        exact List.find?_cons_of_pos _ (by simp)
      · rw [List.find?_cons_of_neg _ (by simp [ha])]
        exact ih h1

theorem mem_groupKeys (f : Row → Option String) (df : Table) (m : String) :
    m ∈ groupKeys f df ↔ ∃ r ∈ df, f r = some m := by
  rw [groupKeys, List.mem_dedup, List.mem_filterMap]

/-- C7: the monthly series counts distinct lead ids per created month, its
month labels always form a subsequence of the calendar order January to
December, a month appears exactly when some row of the filtered table has
it, and no month carries a zero-filled count. -/
theorem monthly_spec (df : Table) :
    ((monthly df).map Prod.fst).Sublist month_order ∧
    (∀ m, m ∈ (monthly df).map Prod.fst ↔
      (m ∈ month_order ∧ ∃ r ∈ df, r.createdMonth = some m)) ∧
    (∀ q ∈ monthly df,
      q.2 = nuniqueLeadIds (df.filter (fun r => r.createdMonth == some q.1)) ∧
      0 < q.2) := by
  have hkeys : (groupbyNuniqueLead (fun r => r.createdMonth) df).map Prod.fst =
      groupKeys (fun r => r.createdMonth) df := groupbyNuniqueLead_map_fst _ _
  have hfst : (monthly df).map Prod.fst =
      month_order.filter (fun m =>
        (groupKeys (fun r => r.createdMonth) df).contains m) := by
    rw [monthly, reindexKeep_map_fst, hkeys]
  refine ⟨?_, ?_, ?_⟩
  · rw [hfst]
    exact List.filter_sublist _
  · intro m
    rw [hfst, List.mem_filter]
    constructor
    · rintro ⟨h1, h2⟩
      have h3 : m ∈ groupKeys (fun r => r.createdMonth) df := by simpa using h2
      exact ⟨h1, (mem_groupKeys _ _ _).mp h3⟩
    · rintro ⟨h1, h2⟩
      refine ⟨h1, ?_⟩
      have h3 : m ∈ groupKeys (fun r => r.createdMonth) df :=
        (mem_groupKeys _ _ _).mpr h2
      simpa using h3
  · intro q hq
    rw [monthly, reindexKeep, hkeys, List.mem_map] at hq
    obtain ⟨m, hm, rfl⟩ := hq
    have hmk : m ∈ groupKeys (fun r => r.createdMonth) df := by
      have h2 := (List.mem_filter.mp hm).2
      simpa using h2
    have hfind : (groupbyNuniqueLead (fun r => r.createdMonth) df).find?
        (fun q => q.1 == m) =
        some (m, nuniqueLeadIds (df.filter (fun r => r.createdMonth == some m))) := by
      rw [groupbyNuniqueLead, List.find?_map]
      have hcomp : ((fun q : String × Nat => q.1 == m) ∘ fun k =>
          (k, nuniqueLeadIds (df.filter (fun r => r.createdMonth == some k)))) =
          fun k => k == m := rfl
      rw [hcomp, find?_beq_self m _ hmk]
      rfl
    constructor
    · rw [hfind]
      rfl
    · rw [hfind]
      show 0 < nuniqueLeadIds (df.filter (fun r => r.createdMonth == some m))
      obtain ⟨r, hr, hrm⟩ := (mem_groupKeys _ _ _).mp hmk
      apply nuniqueLeadIds_pos
      apply List.ne_nil_of_mem (a := r)
      rw [List.mem_filter]
      exact ⟨hr, by simp [hrm]⟩

/-- Witness for C7: a one-row table with a March created date yields March
among the monthly labels. -/
theorem monthly_spec_witness :
    "March" ∈ (monthly [{ exampleRowL1 with createdMonth := some "March" }]).map Prod.fst :=
  ((monthly_spec [{ exampleRowL1 with createdMonth := some "March" }]).2.1 "March").mpr
    ⟨by decide, { exampleRowL1 with createdMonth := some "March" }, by decide, rfl⟩

theorem filterMap_dropna {β : Type} (l : List String) (p : String → Bool)
    (v : String → β) :
    (l.map (fun s => (s, if p s then some (v s) else none))).filterMap
      (fun q => (q.2).map (fun a => (q.1, a))) =
    (l.filter p).map (fun s => (s, v s)) := by
  induction l with
  | nil => rfl
  | cons a t ih =>
    by_cases h : p a
    · simp only [List.map_cons, List.filterMap_cons, List.filter_cons, h, if_true]
      rw [ih]
      rfl
    · simp only [List.map_cons, List.filterMap_cons, List.filter_cons, h,
        Bool.false_eq_true, if_false]
      rw [ih]
      rfl

theorem stage_table_eq (df : Table) :
    stage_table df =
      (stage_order.filter
        (fun s => (groupKeys (fun r => r.stage) df).contains s)).map
        (fun s => (s, stageAgg df s)) :=
  filterMap_dropna stage_order _ _

/-- C9: the stage summary aggregates the sum of ARR Delta and the distinct
lead-id count per stage, its rows appear in the fixed nine-stage order no
matter what order the group-by produced, and a stage of the fixed order is
dropped exactly when no row carries it (the case where both reindexed
aggregates are entirely absent). -/
theorem stage_table_spec (df : Table) :
    ((stage_table df).map Prod.fst).Sublist stage_order ∧
    (∀ s, s ∈ (stage_table df).map Prod.fst ↔
      (s ∈ stage_order ∧ ∃ r ∈ df, r.stage = some s)) ∧
    (∀ q ∈ stage_table df,
      (q.2).1 = arrDeltaSum (df.filter (fun r => r.stage == some q.1)) ∧
      (q.2).2 = nuniqueLeadIds (df.filter (fun r => r.stage == some q.1))) := by
  have hfst : (stage_table df).map Prod.fst =
      stage_order.filter (fun s => (groupKeys (fun r => r.stage) df).contains s) := by
    rw [stage_table_eq, List.map_map]
    exact List.map_id'' (fun x => rfl) _
  refine ⟨?_, ?_, ?_⟩
  · rw [hfst]
    exact List.filter_sublist _
  · intro s
    rw [hfst, List.mem_filter]
    constructor
    · rintro ⟨h1, h2⟩
      have h3 : s ∈ groupKeys (fun r => r.stage) df := by simpa using h2
      exact ⟨h1, (mem_groupKeys _ _ _).mp h3⟩
    · rintro ⟨h1, h2⟩
      refine ⟨h1, ?_⟩
      have h3 : s ∈ groupKeys (fun r => r.stage) df :=
        (mem_groupKeys _ _ _).mpr h2
      simpa using h3
  · intro q hq
    rw [stage_table_eq, List.mem_map] at hq
    obtain ⟨s, _, rfl⟩ := hq
    exact ⟨rfl, rfl⟩

/-- Witness for C9: a theorem of C9 instantiated where the implications
inside the membership characterisation are discharged at a concrete table
whose single row is in stage Discovery. -/
theorem stage_table_spec_witness :
    "Discovery" ∈ (stage_table [{ exampleRowL1 with stage := some "Discovery" }]).map Prod.fst :=
  ((stage_table_spec [{ exampleRowL1 with stage := some "Discovery" }]).2.1
    "Discovery").mpr
    ⟨by decide, { exampleRowL1 with stage := some "Discovery" }, by decide, rfl⟩

theorem rat_floor_natCast (c : Nat) : ((c : Rat)).floor = (c : Int) := by
  rw [Rat.floor_def', Rat.num_natCast, Rat.den_natCast]
  simp

theorem roundHalfEven_natCast (c : Nat) : roundHalfEven (c : Rat) = (c : Int) := by
  rw [roundHalfEven, rat_floor_natCast]
  norm_num

theorem pct_roundtrip (c t : Nat) (h : 0 < t) :
    (c : Rat) / (t : Rat) * 100 * (t : Rat) / 100 = (c : Rat) := by
  have ht : (t : Rat) ≠ 0 := Nat.cast_ne_zero.mpr h.ne'
  field_simp

/-- C8: each pie label renders the percentage to one decimal, a newline,
and an absolute count recomputed from the percentage; at the exact wedge
percentage count over total times 100 the recomputed count (Python `int`
truncation, and equally the rounding the spec describes) equals the true
group count, and the counts {Qualified 30, Not Qualified 70} yield the
labels "30.0%\n(30)" and "70.0%\n(70)". -/
theorem pie_labels_spec (q nq : Nat) (h : 0 < q + nq) :
    pie_labels q nq =
      (fmtRat1 ((q : Rat) / ((q + nq : Nat) : Rat) * 100) ++ "%\n(" ++
        toString (q : Int) ++ ")",
       fmtRat1 ((nq : Rat) / ((q + nq : Nat) : Rat) * 100) ++ "%\n(" ++
        toString (nq : Int) ++ ")") ∧
    ((q : Rat) / ((q + nq : Nat) : Rat) * 100 * ((q + nq : Nat) : Rat) / 100).floor =
      roundHalfEven ((q : Rat) / ((q + nq : Nat) : Rat) * 100 * ((q + nq : Nat) : Rat) / 100) ∧
    pie_labels 30 70 = ("30.0%\n(30)", "70.0%\n(70)") := by
  have key : ∀ (a b : Nat), 0 < a + b → pie_labels a b =
      (fmtRat1 ((a : Rat) / ((a + b : Nat) : Rat) * 100) ++ "%\n(" ++
        toString (a : Int) ++ ")",
       fmtRat1 ((b : Rat) / ((a + b : Nat) : Rat) * 100) ++ "%\n(" ++
        toString (b : Int) ++ ")") := by
    intro a b hab
    rw [pie_labels, autopct_label, autopct_label, pct_roundtrip a (a + b) hab,
      pct_roundtrip b (a + b) hab, rat_floor_natCast, rat_floor_natCast]
  refine ⟨key q nq h, ?_, ?_⟩
  · rw [pct_roundtrip q (q + nq) h, rat_floor_natCast, roundHalfEven_natCast]
  · rw [key 30 70 (by norm_num)]
    have e1 : ((30 : Nat) : Rat) / ((30 + 70 : Nat) : Rat) * 100 = ((30 : Nat) : Rat) := by
      norm_num
    have e2 : ((70 : Nat) : Rat) / ((30 + 70 : Nat) : Rat) * 100 = ((70 : Nat) : Rat) := by
      norm_num
    have e3 : ((30 : Nat) : Rat) * 10 = ((300 : Nat) : Rat) := by norm_num
    have e4 : ((70 : Nat) : Rat) * 10 = ((700 : Nat) : Rat) := by norm_num
    rw [e1, e2, fmtRat1, fmtRat1, e3, e4, roundHalfEven_natCast, roundHalfEven_natCast]
    rfl

/-- Witness for C8 at the count pair of the spec example. -/
theorem pie_labels_spec_witness :
    0 < 30 + 70 ∧ pie_labels 30 70 = ("30.0%\n(30)", "70.0%\n(70)") :=
  ⟨by decide, (pie_labels_spec 30 70 (by decide)).2.2⟩

theorem mem_leftMerge_some (df : Table) (assoc : List AssocRow) (i c : String) :
    (i, some c) ∈ leftMerge df assoc ↔
      ((∃ r ∈ df, r.leadId = i) ∧
        ∃ a ∈ assoc, a.leadId = i ∧ a.campaignName = some c) := by
  rw [leftMerge, List.mem_flatMap]
  constructor
  · rintro ⟨r, hr, hmem⟩
    by_cases hms : (assoc.filter (fun a => a.leadId == r.leadId)).isEmpty = true
    · rw [if_pos hms] at hmem
      simp at hmem
    · rw [if_neg hms, List.mem_map] at hmem
      obtain ⟨a, ha, heq⟩ := hmem
      obtain ⟨ha1, ha2⟩ := List.mem_filter.mp ha
      have hri : r.leadId = i := congrArg Prod.fst heq
      have hac : a.campaignName = some c := congrArg Prod.snd heq
      refine ⟨⟨r, hr, hri⟩, a, ha1, ?_, hac⟩
      have hal : a.leadId = r.leadId := by simpa using ha2
      rw [hal, hri]
  · rintro ⟨⟨r, hr, hri⟩, a, ha, hai, hac⟩
    refine ⟨r, hr, ?_⟩
    have hin : a ∈ assoc.filter (fun a => a.leadId == r.leadId) :=
      List.mem_filter.mpr ⟨ha, by simp [hai, hri]⟩
    have hne : ¬ (assoc.filter (fun a => a.leadId == r.leadId)).isEmpty = true := by
      rw [List.isEmpty_iff]
      intro hnil
      rw [hnil] at hin
      cases hin
    rw [if_neg hne, List.mem_map]
    exact ⟨a, hin, by rw [hac, hri]⟩

theorem mem_campaign_ids (df : Table) (assoc : List AssocRow) (c i : String) :
    i ∈ ((leftMerge df assoc).filter (fun q => q.2 == some c)).map Prod.fst ↔
      ((∃ r ∈ df, r.leadId = i) ∧
        ∃ a ∈ assoc, a.leadId = i ∧ a.campaignName = some c) := by
  rw [List.mem_map]
  constructor
  · rintro ⟨q, hq, rfl⟩
    obtain ⟨hq1, hq2⟩ := List.mem_filter.mp hq
    have hq2' : q.2 = some c := by simpa using hq2
    have hq1' : (q.1, some c) ∈ leftMerge df assoc := by
      rw [← hq2']
      exact hq1
    exact (mem_leftMerge_some df assoc q.1 c).mp hq1'
  · intro hi
    refine ⟨(i, some c), ?_, rfl⟩
    exact List.mem_filter.mpr ⟨(mem_leftMerge_some df assoc i c).mpr hi, by simp⟩

/-- C10: in the top-campaigns aggregation, the per-campaign Lead Count is
the number of distinct lead ids of the filtered table having an
association row for that campaign — so a lead associated with n distinct
campaigns contributes exactly 1 to each of those n counts; a lead with no
association row contributes to no campaign; and on a concrete one-lead
table with two associations the per-campaign counts sum to more than
`total_leads`. -/
theorem top_campaigns_multicount :
    (∀ (df : Table) (assoc : List AssocRow) (c : String),
      campaign_lead_count df assoc c =
        ((df.map (fun r => r.leadId)).dedup.filter
          (fun i => assoc.any
            (fun a => a.leadId == i && a.campaignName == some c))).length) ∧
    (∀ (df : Table) (assoc : List AssocRow) (r : Row) (c : String),
      r ∈ df → (∀ a ∈ assoc, a.leadId ≠ r.leadId) →
        r.leadId ∉
          ((leftMerge df assoc).filter (fun q => q.2 == some c)).map Prod.fst) ∧
    total_leads exampleCampaignDf <
      campaign_lead_count exampleCampaignDf exampleCampaignAssoc "Webinar" +
        campaign_lead_count exampleCampaignDf exampleCampaignAssoc "Field Event" := by
  refine ⟨?_, ?_, ?_⟩
  · intro df assoc c
    rw [campaign_lead_count, ← List.card_toFinset]
    have hnd : ((df.map (fun r => r.leadId)).dedup.filter
        (fun i => assoc.any
          (fun a => a.leadId == i && a.campaignName == some c))).Nodup :=
      (List.nodup_dedup _).filter _
    rw [← List.toFinset_card_of_nodup hnd]
    congr 1
    ext i
    rw [List.mem_toFinset, List.mem_toFinset, mem_campaign_ids df assoc c i,
      List.mem_filter, List.mem_dedup, List.mem_map]
    simp [List.any_eq_true]
  · intro df assoc r c hr hno hmem
    obtain ⟨-, a, ha, hai, -⟩ := (mem_campaign_ids df assoc c r.leadId).mp hmem
    exact hno a ha hai
  · decide

/-- Witness for C10: a row with no association row at all is counted for no
campaign. -/
theorem top_campaigns_multicount_witness :
    exampleRowL1 ∈ exampleCampaignDf ∧
      exampleRowL1.leadId ∉
        ((leftMerge exampleCampaignDf []).filter
          (fun q => q.2 == some "Webinar")).map Prod.fst :=
  ⟨by decide,
    top_campaigns_multicount.2.1 exampleCampaignDf [] exampleRowL1 "Webinar"
      (by decide) (by simp)⟩

end LeadDashboard
